import Mathlib

/-!
Verification development for the pdf-mass-unlock repository.

The Python modules `passwords.py`, `unlocker.py`, `io_utils.py` and `cli.py`
are shallowly embedded below.  Strings are lists of characters, file contents
are lists of bytes, and the external collaborators (the pikepdf document
capability and the filesystem) are modelled as explicit data:

* `pikepdf.open` outcomes for one file appear as fields of a `World` record
  (`openNoPw` for the password-less probe, `openWith` for each trial secret);
* filesystem facts relevant to the backup logic (directory existence,
  kind, writability, backup-file content) are further `World` fields;
* mutating operations are state-passing functions `World → ... × World`;
* Python exceptions are values of `PyExc`, and a `try/except` boundary is an
  `Option PyExc` (or `Except PyExc`) result.

`unicodedata.normalize("NFKC", ·)` from the Python standard library is an
external collaborator as well; it is a parameter `normalize : Str → Str`
of the embedded credential-sequencing functions.
-/

namespace PdfMassUnlock

/-- Python `str` values, as lists of characters. -/
abbrev Str := List Char

/-- File contents, as lists of bytes. -/
abbrev Bytes := List Nat

/-- Characters stripped by `str.rstrip("\r\n")`: carriage return and newline. -/
def is_crlf (c : Char) : Bool := c.toNat == 13 || c.toNat == 10

/-- Code points Python's `str.strip()` / `str.isspace()` treat as whitespace. -/
def py_space_codes : List Nat :=
  [9, 10, 11, 12, 13, 28, 29, 30, 31, 32, 133, 160, 5760,
   8192, 8193, 8194, 8195, 8196, 8197, 8198, 8199, 8200, 8201, 8202,
   8232, 8233, 8239, 8287, 12288]

/-- Whether a character counts as Python whitespace. -/
def is_py_space (c : Char) : Bool := py_space_codes.contains c.toNat

/-- Strip from the right all trailing characters satisfying `q`
(the semantics of Python `str.rstrip(chars)`). -/
def rstrip_by (q : Char → Bool) (s : Str) : Str := (s.reverse.dropWhile q).reverse

/-- Python `line.rstrip("\r\n")`: remove trailing line terminators only. -/
def rstrip_crlf (s : Str) : Str := rstrip_by is_crlf s

/-- Python `str.strip()` with no argument: drop leading and trailing whitespace. -/
def py_strip (s : Str) : Str := rstrip_by is_py_space (s.dropWhile is_py_space)

/-- The comment marker character `#`. -/
def hash_char : Char := Char.ofNat 35

/-- One iteration of the loop body of `_iter_from_dictionary`
(`passwords.py`, lines 61-78): strip line terminators, apply the Unicode
normalization (the code calls `unicodedata.normalize("NFKC", password)`),
skip blank lines (`not password.strip()`) and comment lines
(`password.lstrip().startswith("#")`), otherwise yield the password. -/
def process_line (normalize : Str → Str) (line : Str) : Option Str :=
  let password := normalize (rstrip_crlf line)
  if py_strip password = [] then none
  else if (password.dropWhile is_py_space).head? = some hash_char then none
  else some password

/-- The keep-condition of `_iter_from_dictionary` as a boolean predicate on the
already-stripped-and-normalized password: not blank and not a comment. -/
def keep_password (p : Str) : Bool :=
  !(py_strip p).isEmpty && !((p.dropWhile is_py_space).head? == some hash_char)

/-- `_iter_from_dictionary(dictionary_path)` (`passwords.py`): the passwords
yielded from the wordlist file, given its decoded lines in file order. -/
def iter_from_dictionary (normalize : Str → Str) (lines : List Str) : List Str :=
  lines.filterMap (process_line normalize)

/-- The credential origin labels used by `iter_passwords`
("single", "dictionary", "environment", "empty"). -/
inductive Source
  | single
  | dictionary
  | environment
  | empty
deriving DecidableEq, Repr

/-- Priority rank of a credential source: the order in which `iter_passwords`
visits the sources. -/
def src_rank : Source → Nat
  | .single => 0
  | .dictionary => 1
  | .environment => 2
  | .empty => 3

/-- Candidates contributed by the `--password` CLI flag: the single secret when
provided (the code guards with `single is not None`). -/
def single_cands : Option Str → List Str
  | some s => [s]
  | none => []

/-- Candidates contributed by the wordlist file: its processed lines when the
path was given and the file exists, nothing otherwise
(`if dictionary_path and dictionary_path.exists()`). -/
def dict_cands (normalize : Str → Str) : Option (List Str) → List Str
  | some lines => iter_from_dictionary normalize lines
  | none => []

/-- Candidates contributed by the `PDFMASSUNLOCK_PASSWORD` environment value as
the code treats it: the guard `if env_password and ...` drops a value that is
`None` or the empty string (Python truthiness). -/
def env_cands : Option Str → List Str
  | some p => if p = [] then [] else [p]
  | none => []

/-- Candidates contributed by the `--try-empty` flag: the empty secret when the
flag is set. -/
def empty_cands : Bool → List Str
  | true => [[]]
  | false => []

/-- The `seen`-set filtering of `iter_passwords`: keep each candidate that is
not already in `seen`, adding kept candidates to `seen` as the loop advances. -/
def dedup_keep : List Str → List Str → List Str
  | _, [] => []
  | seen, p :: ps =>
    if p ∈ seen then dedup_keep seen ps else p :: dedup_keep (p :: seen) ps

/-- `iter_passwords(single, dictionary_path, env, try_empty)`
(`passwords.py`, lines 6-48): emit `(secret, origin)` pairs, visiting the
sources in the fixed order single, dictionary, environment, empty, with one
shared `seen` set suppressing any secret already emitted.  The `envPassword`
argument is `env.get("PDFMASSUNLOCK_PASSWORD")` (already `none` when the
mapping is absent, empty, or lacks the key). -/
def iter_passwords (normalize : Str → Str) (single : Option Str)
    (dict : Option (List Str)) (envPassword : Option Str) (try_empty : Bool) :
    List (Str × Source) :=
  let k1 := dedup_keep [] (single_cands single)
  let k2 := dedup_keep k1 (dict_cands normalize dict)
  let k3 := dedup_keep (k1 ++ k2) (env_cands envPassword)
  let k4 := dedup_keep (k1 ++ k2 ++ k3) (empty_cands try_empty)
  k1.map (fun p => (p, Source.single)) ++ k2.map (fun p => (p, Source.dictionary))
    ++ k3.map (fun p => (p, Source.environment)) ++ k4.map (fun p => (p, Source.empty))

/-- The candidates each source contributes, exactly as the code selects them
(environment empty string already suppressed). -/
def candidates_of (normalize : Str → Str) (single : Option Str)
    (dict : Option (List Str)) (envPassword : Option Str) (try_empty : Bool) :
    Source → List Str
  | .single => single_cands single
  | .dictionary => dict_cands normalize dict
  | .environment => env_cands envPassword
  | .empty => empty_cands try_empty

/-- The sources under which a secret appears, in priority order, with the
environment source contributing exactly when the code would keep its value. -/
def origins_of (normalize : Str → Str) (single : Option Str)
    (dict : Option (List Str)) (envPassword : Option Str) (try_empty : Bool)
    (s : Str) : List Source :=
  [Source.single, Source.dictionary, Source.environment, Source.empty].filter
    (fun src => decide (s ∈ candidates_of normalize single dict envPassword try_empty src))

/-- The environment's candidates as the specification reads: the supplied
environment value whenever one is present, with no truthiness filtering. -/
def spec_env_cands : Option Str → List Str
  | some p => [p]
  | none => []

/-- Candidates per source under the specification's reading of "appearing under
a source" (environment value present means the variable is set, even to ""). -/
def spec_candidates_of (normalize : Str → Str) (single : Option Str)
    (dict : Option (List Str)) (envPassword : Option Str) (try_empty : Bool) :
    Source → List Str
  | .single => single_cands single
  | .dictionary => dict_cands normalize dict
  | .environment => spec_env_cands envPassword
  | .empty => empty_cands try_empty

/-- The sources under which a secret appears, priority-ordered, under the
specification's reading. -/
def spec_origins_of (normalize : Str → Str) (single : Option Str)
    (dict : Option (List Str)) (envPassword : Option Str) (try_empty : Bool)
    (s : Str) : List Source :=
  [Source.single, Source.dictionary, Source.environment, Source.empty].filter
    (fun src => decide (s ∈ spec_candidates_of normalize single dict envPassword try_empty src))

/-! ### The unlock orchestrator (`unlocker.py`) and its collaborators -/

/-- Outcome of a `pikepdf.open` call on the processed file. -/
inductive OpenResult
  | ok
  | passwordError
  | otherError (m : Str)
deriving DecidableEq, Repr

/-- Python exceptions observable by the embedded code. -/
inductive PyExc
  | passwordError
  | openError (m : Str)
  | saveError (m : Str)
  | fileExistsError
  | permDirNotWritable
  | permParentNotWritable
  | touchOSError
  | copyOSError
deriving DecidableEq, Repr

/-- The `error_message` strings `unlocker.py` formats, keyed by their
format-string, carrying the wrapped exception. -/
inductive ErrMsg
  | errorCheckingEncrypted (e : PyExc)
  | failedToCreateBackup (e : PyExc)
  | errorProcessingPdf (e : PyExc)
  | allPasswordsFailed
deriving DecidableEq, Repr

/-- The failure-cause category an `error_message` belongs to. -/
inductive CauseTag
  | classification
  | backup
  | trial
  | exhausted
deriving DecidableEq, Repr

/-- Category of an error message. -/
def cause_of : ErrMsg → CauseTag
  | .errorCheckingEncrypted _ => .classification
  | .failedToCreateBackup _ => .backup
  | .errorProcessingPdf _ => .trial
  | .allPasswordsFailed => .exhausted

/-- `UnlockStatus` from `unlocker.py`. -/
inductive UnlockStatus
  | unchanged
  | unlocked
  | failed
deriving DecidableEq, Repr

/-- The `method_used` labels: "already_unlocked" or the succeeding
credential's source label. -/
inductive MethodLabel
  | alreadyUnlocked
  | fromSource (s : Source)
deriving DecidableEq, Repr

/-- `UnlockResult` from `unlocker.py` (the `file_path` field, constant for the
single processed file, is omitted). -/
structure UnlockResult where
  status : UnlockStatus
  errorMessage : Option ErrMsg
  methodUsed : Option MethodLabel
deriving DecidableEq, Repr

/-- The state of one processed file and its surroundings.  `openWith p` is the
outcome pikepdf reports for opening the file with password `p`; `saveErr` is
`some m` when `Pdf.save` would raise a (non-password) exception; `decrypted`
is the re-serialized content a successful save produces; `dirExists`,
`dirIsDir`, `dirWritable`, `parentWritable` describe the sibling backup
directory path and the file's parent directory; `backupBytes` is the content
of `backup_dir/src.name` when that file exists.  A directory freshly created
by `mkdir` is writable by its creator. -/
structure World where
  openNoPw : OpenResult
  openWith : Str → OpenResult
  saveErr : Option Str
  decrypted : Bytes
  fileBytes : Bytes
  dirExists : Bool
  dirIsDir : Bool
  dirWritable : Bool
  parentWritable : Bool
  backupBytes : Option Bytes

/-- The `pikepdf.open(filepath)` probe without a password, as the exception
interface the callers see. -/
def pikepdf_open_no_password (w : World) : Except PyExc Unit :=
  match w.openNoPw with
  | .ok => .ok ()
  | .passwordError => .error .passwordError
  | .otherError m => .error (.openError m)

/-- `is_pdf_encrypted(filepath)` (`unlocker.py`, lines 45-66): try to open
without a password; success means not encrypted, `pikepdf.PasswordError`
means encrypted, and any other exception is conservatively treated as
encrypted.  Every branch returns a boolean, so the function itself raises
nothing: the result is always `Except.ok`. -/
def is_pdf_encrypted (w : World) : Except PyExc Bool :=
  match pikepdf_open_no_password w with
  | .ok _ => .ok false
  | .error .passwordError => .ok true
  | .error _ => .ok true

/-- `ensure_backup(src)` (`io_utils.py`, lines 8-21):
`backup_dir.mkdir(exist_ok=True)`.  Raises `FileExistsError` when the path
exists but is not a directory, `PermissionError` when the directory must be
created inside an unwritable parent; otherwise the directory exists
afterwards (a fresh directory being writable by its creator). -/
def ensure_backup (w : World) : Option PyExc × World :=
  if w.dirExists then
    if w.dirIsDir then (none, w) else (some .fileExistsError, w)
  else if w.parentWritable then
    (none, { w with dirExists := true, dirIsDir := true, dirWritable := true })
  else (some .permParentNotWritable, w)

/-- `validate_backup_path(src)` (`io_utils.py`, lines 56-92): run
`ensure_backup`, then probe writability by touching and unlinking a test file
in the backup directory (an `OSError` when the directory is not writable);
the test file is removed again, so beyond `ensure_backup` the state does not
change. -/
def validate_backup_path (w : World) : Option PyExc × World :=
  match ensure_backup w with
  | (some e, w1) => (some e, w1)
  | (none, w1) =>
    if w1.dirWritable then (none, w1) else (some .touchOSError, w1)

/-- `copy_backup(src)` (`io_utils.py`, lines 95-111): run `ensure_backup`,
then `shutil.copy2(src, backup_path)`, which writes the source's current
bytes over `backup_dir/src.name` whether or not a backup file already
exists there. -/
def copy_backup (w : World) : Option PyExc × World :=
  match ensure_backup w with
  | (some e, w1) => (some e, w1)
  | (none, w1) =>
    if w1.dirWritable then (none, { w1 with backupBytes := some w1.fileBytes })
    else (some .copyOSError, w1)

/-- The backup block of `unlock_file` (`unlocker.py`, lines 96-108):
`validate_backup_path` followed by `copy_backup`, inside one `try`. -/
def backup_phase (w : World) : Option PyExc × World :=
  match validate_backup_path w with
  | (some e, w1) => (some e, w1)
  | (none, w1) => copy_backup w1

/-- The password-trial loop of `unlock_file` (`unlocker.py`, lines 110-139).
Besides the `UnlockResult` and the final state it returns the trace of
secrets for which `pikepdf.open(filepath, password=...)` was attempted.
A successful open saves the re-serialized document through `atomic_write`;
an exception from the save is caught by the loop's generic handler. -/
def trial_loop (w : World) : List (Str × Source) → UnlockResult × World × List Str
  | [] => (⟨.failed, some .allPasswordsFailed, none⟩, w, [])
  | (p, src) :: rest =>
    match w.openWith p with
    | .passwordError =>
      let r := trial_loop w rest
      (r.1, r.2.1, p :: r.2.2)
    | .otherError m => (⟨.failed, some (.errorProcessingPdf (.openError m)), none⟩, w, [p])
    | .ok =>
      match w.saveErr with
      | some m => (⟨.failed, some (.errorProcessingPdf (.saveError m)), none⟩, w, [p])
      | none =>
        (⟨.unlocked, none, some (.fromSource src)⟩, { w with fileBytes := w.decrypted }, [p])

/-- The part of `unlock_file` that runs once the file is classified as
protected: backup phase, then the trial loop. -/
def backup_and_trials (w : World) (pws : List (Str × Source)) :
    UnlockResult × World × List Str :=
  match backup_phase w with
  | (some e, w1) => (⟨.failed, some (.failedToCreateBackup e), none⟩, w1, [])
  | (none, w1) => trial_loop w1 pws

/-- `unlock_file(filepath, passwords)` (`unlocker.py`, lines 69-139).  The
caller-side `try/except` around `is_pdf_encrypted` appears as the match on
its `Except` result. -/
def unlock_file (w : World) (pws : List (Str × Source)) :
    UnlockResult × World × List Str :=
  match is_pdf_encrypted w with
  | .error e => (⟨.failed, some (.errorCheckingEncrypted e), none⟩, w, [])
  | .ok false => (⟨.unchanged, none, some .alreadyUnlocked⟩, w, [])
  | .ok true => backup_and_trials w pws

/-- `validate_backup_path_no_side_effects(src)` (`io_utils.py`, lines 24-53):
purely observational checks — an existing backup directory must pass
`os.access(backup_dir, W_OK)`, a missing one requires
`os.access(src.parent, W_OK)`; nothing is created. -/
def validate_backup_path_no_side_effects (w : World) : Option PyExc :=
  if w.dirExists then
    if w.dirWritable then none else some .permDirNotWritable
  else if w.parentWritable then none else some .permParentNotWritable

/-- The trial loop of `try_unlock_dry_run` (`unlocker.py`, lines 179-200):
identical decisions, but a successful open reports `UNLOCKED` without
saving anything. -/
def dry_trial_loop (w : World) : List (Str × Source) → UnlockResult × World × List Str
  | [] => (⟨.failed, some .allPasswordsFailed, none⟩, w, [])
  | (p, src) :: rest =>
    match w.openWith p with
    | .passwordError =>
      let r := dry_trial_loop w rest
      (r.1, r.2.1, p :: r.2.2)
    | .otherError m => (⟨.failed, some (.errorProcessingPdf (.openError m)), none⟩, w, [p])
    | .ok => (⟨.unlocked, none, some (.fromSource src)⟩, w, [p])

/-- `try_unlock_dry_run(filepath, passwords)` (`unlocker.py`, lines 142-205). -/
def try_unlock_dry_run (w : World) (pws : List (Str × Source)) :
    UnlockResult × World × List Str :=
  match is_pdf_encrypted w with
  | .error e => (⟨.failed, some (.errorCheckingEncrypted e), none⟩, w, [])
  | .ok false => (⟨.unchanged, none, some .alreadyUnlocked⟩, w, [])
  | .ok true =>
    match validate_backup_path_no_side_effects w with
    | some e => (⟨.failed, some (.failedToCreateBackup e), none⟩, w, [])
    | none => dry_trial_loop w pws

/-! ### The atomic writer (`io_utils.py`, `atomic_write`) -/

/-- The observable directory state around `atomic_write`'s target: the bytes
at the target path (if the file exists) and whether the scoped temporary
file currently exists beside it. -/
structure AWState where
  targetBytes : Option Bytes
  tempExists : Bool
deriving DecidableEq, Repr

/-- Result of one `atomic_write` run as its caller observes it. -/
inductive AWOutcome
  | ok
  | raised (e : PyExc)
deriving DecidableEq, Repr

/-- `atomic_write(filepath)` (`io_utils.py`, lines 114-144) together with one
producer run.  `tempCreateErr` is a failure of `NamedTemporaryFile` itself
(raised before anything exists); `producerErr` is an exception from the
caller's block (the producer); `fsyncErr` is a failure of `flush`/`os.fsync`;
`replaceErr` is a failure of the final `os.replace` — which the code does not
guard, so the temporary file survives that path.  On the guarded failure
paths the temporary file is unlinked and the exception re-raised; only the
final `os.replace` changes the bytes at the target path. -/
def atomic_write (s : AWState) (tempCreateErr : Option PyExc)
    (producerErr : Option PyExc) (produced : Bytes) (fsyncErr : Option PyExc)
    (replaceErr : Option PyExc) : AWOutcome × AWState :=
  match tempCreateErr with
  | some e => (.raised e, s)
  | none =>
    let s1 : AWState := { s with tempExists := true }
    match producerErr with
    | some e => (.raised e, { s1 with tempExists := false })
    | none =>
      match fsyncErr with
      | some e => (.raised e, { s1 with tempExists := false })
      | none =>
        match replaceErr with
        | some e => (.raised e, s1)
        | none => (.ok, { targetBytes := some produced, tempExists := false })

/-! ### The CLI exit status (`cli.py`, `main`) -/

/-- The exit code computation of `cli.py`: `main` raises `typer.Exit(code=0)`
when the traversal finds no PDF files (lines 107-109), and otherwise exits
with `0 if failed == 0 else 1` over the processed files' statuses
(lines 154-157). -/
def cli_exit_code (results : List UnlockStatus) : Nat :=
  if results.isEmpty then 0
  else if results.countP (fun r => r == UnlockStatus.failed) = 0 then 0 else 1

/-- The conditions under which the mutating backup block of `unlock_file`
(validate, then copy) raises: the backup directory path exists but is not a
directory or not writable, or it does not exist and the parent directory is
not writable. -/
def backup_step_fails (w : World) : Bool :=
  (w.dirExists && (!w.dirIsDir || !w.dirWritable)) || (!w.dirExists && !w.parentWritable)

/-! ### Concrete worlds used by the witnesses and counterexamples -/

/-- A file that opens with no password, supplied alongside arbitrary
credentials. -/
def wAlready : World :=
  { openNoPw := .ok, openWith := fun _ => .passwordError, saveErr := none,
    decrypted := [], fileBytes := [0], dirExists := false, dirIsDir := false,
    dirWritable := false, parentWritable := true, backupBytes := none }

/-- A protected file whose backup cannot be created: no backup directory and
an unwritable parent. -/
def wBackupFail : World :=
  { openNoPw := .passwordError, openWith := fun _ => .ok, saveErr := none,
    decrypted := [], fileBytes := [0], dirExists := false, dirIsDir := false,
    dirWritable := false, parentWritable := false, backupBytes := none }

/-- A protected file whose backup-directory path is occupied by a writable
regular file: `os.access(path, W_OK)` passes, `mkdir(exist_ok=True)` raises
`FileExistsError`. -/
def wDirIsFile : World :=
  { openNoPw := .passwordError, openWith := fun _ => .ok, saveErr := none,
    decrypted := [2], fileBytes := [1], dirExists := true, dirIsDir := false,
    dirWritable := true, parentWritable := true, backupBytes := none }

/-- A file whose password-less open fails with a non-password error
(malformed input). -/
def wOtherError : World :=
  { openNoPw := .otherError [], openWith := fun _ => .passwordError, saveErr := none,
    decrypted := [], fileBytes := [0], dirExists := true, dirIsDir := true,
    dirWritable := true, parentWritable := true, backupBytes := none }

/-- A protected file with an existing, writable backup directory that already
holds a stale backup file with different bytes. -/
def wStaleBackup : World :=
  { openNoPw := .passwordError, openWith := fun _ => .passwordError, saveErr := none,
    decrypted := [], fileBytes := [7], dirExists := true, dirIsDir := true,
    dirWritable := true, parentWritable := true, backupBytes := some [9] }

/-- The one-character secret "0". -/
def secret0 : Str := [Char.ofNat 48]

/-- A protected file that unlocks with the secret `secret0`, in a directory
where the backup can be created. -/
def wUnlockable : World :=
  { openNoPw := .passwordError,
    openWith := fun p => if p = secret0 then .ok else .passwordError, saveErr := none,
    decrypted := [5], fileBytes := [1], dirExists := false, dirIsDir := false,
    dirWritable := false, parentWritable := true, backupBytes := none }

/-! ## Helper lemmas -/

theorem head?_dropWhile_not (q : Char → Bool) (l : List Char) (c : Char)
    (h : (l.dropWhile q).head? = some c) : q c = false := by
  induction l with
  | nil => simp [List.dropWhile] at h
  | cons a l ih =>
    rw [List.dropWhile_cons] at h
    by_cases ha : q a
    · simp [ha] at h
      exact ih h
    · simp [ha] at h
      subst h
      exact Bool.not_eq_true _ |>.mp ha

theorem rstrip_by_split (q : Char → Bool) (s : Str) :
    ∃ t, s = rstrip_by q s ++ t ∧ ∀ c ∈ t, q c = true := by
  refine ⟨(s.reverse.takeWhile q).reverse, ?_, ?_⟩
  · conv_lhs => rw [← s.reverse_reverse]
    conv_lhs => rw [← List.takeWhile_append_dropWhile q s.reverse]
    rw [List.reverse_append]
    rfl
  · intro c hc
    rw [List.mem_reverse] at hc
    exact List.mem_takeWhile_imp hc

theorem rstrip_by_getLast (q : Char → Bool) (s : Str) (c : Char)
    (h : (rstrip_by q s).getLast? = some c) : q c = false := by
  unfold rstrip_by at h
  rw [List.getLast?_reverse] at h
  exact head?_dropWhile_not q s.reverse c h

theorem rstrip_by_eq_nil_iff (q : Char → Bool) (s : Str) :
    rstrip_by q s = [] ↔ ∀ c ∈ s, q c = true := by
  unfold rstrip_by
  rw [List.reverse_eq_nil_iff, List.dropWhile_eq_nil_iff]
  constructor
  · intro h c hc
    exact h c (List.mem_reverse.mpr hc)
  · intro h c hc
    exact h c (List.mem_reverse.mp hc)

theorem py_strip_eq_nil_iff (p : Str) :
    py_strip p = [] ↔ p.all is_py_space = true := by
  unfold py_strip
  rw [rstrip_by_eq_nil_iff, List.all_eq_true]
  constructor
  · intro h c hc
    rcases List.mem_append.mp
        ((List.takeWhile_append_dropWhile is_py_space p ▸ hc : c ∈ _)) with h1 | h2
    · exact List.mem_takeWhile_imp h1
    · exact h c h2
  · intro h c hc
    exact h c ((List.dropWhile_sublist is_py_space).mem hc)

theorem process_line_eq (normalize : Str → Str) (line : Str) :
    process_line normalize line =
      (if keep_password (normalize (rstrip_crlf line))
       then some (normalize (rstrip_crlf line)) else none) := by
  unfold process_line keep_password
  by_cases h1 : py_strip (normalize (rstrip_crlf line)) = []
  · simp [h1, List.isEmpty_iff]
  · by_cases h2 :
      ((normalize (rstrip_crlf line)).dropWhile is_py_space).head? = some hash_char
    · simp [h1, h2, List.isEmpty_iff]
    · simp [h1, h2, List.isEmpty_iff]

theorem filterMap_guard (f : Str → Str) (q : Str → Bool) (l : List Str) :
    l.filterMap (fun a => if q (f a) then some (f a) else none) =
      (l.map f).filter q := by
  induction l with
  | nil => rfl
  | cons a l ih =>
    by_cases h : q (f a) <;> simp [List.filterMap_cons, h, ih]

/-! ## Claim theorems -/

/-- Claim C7: every candidate emitted from the wordlist is the corresponding
kept line with exactly the trailing line-terminator characters removed —
nothing but CR/LF is dropped, and the stripping is maximal, so leading,
trailing and internal spaces survive — after which the Unicode text
normalization (the library call `unicodedata.normalize("NFKC", ...)`,
embedded as the `normalize` parameter) is applied; lines that are blank or
comments after that processing are the only ones skipped, in file order. -/
theorem iter_from_dictionary_spec (normalize : Str → Str) (lines : List Str) :
    iter_from_dictionary normalize lines =
        (lines.map (fun l => normalize (rstrip_crlf l))).filter keep_password
    ∧ (∀ line : Str, ∃ t, line = rstrip_crlf line ++ t ∧ ∀ c ∈ t, is_crlf c = true)
    ∧ (∀ line c, (rstrip_crlf line).getLast? = some c → is_crlf c = false) := by
  refine ⟨?_, ?_, ?_⟩
  · unfold iter_from_dictionary
    rw [← filterMap_guard]
    exact List.filterMap_congr (fun l _ => process_line_eq normalize l)
  · intro line
    exact rstrip_by_split is_crlf line
  · intro line c h
    exact rstrip_by_getLast is_crlf line c h

/-- Claim C7 witness: the theorem applied to a concrete two-line wordlist
(`" a \r\n"` and a comment line), with the results evaluated. -/
theorem iter_from_dictionary_spec_witness :
    iter_from_dictionary id
        [[Char.ofNat 32, Char.ofNat 97, Char.ofNat 32, Char.ofNat 13, Char.ofNat 10],
         [Char.ofNat 35, Char.ofNat 98]] =
      (([[Char.ofNat 32, Char.ofNat 97, Char.ofNat 32, Char.ofNat 13, Char.ofNat 10],
         [Char.ofNat 35, Char.ofNat 98]].map
          (fun l => id (rstrip_crlf l))).filter keep_password)
    ∧ iter_from_dictionary id
        [[Char.ofNat 32, Char.ofNat 97, Char.ofNat 32, Char.ofNat 13, Char.ofNat 10],
         [Char.ofNat 35, Char.ofNat 98]] =
      [[Char.ofNat 32, Char.ofNat 97, Char.ofNat 32]] :=
  ⟨(iter_from_dictionary_spec id _).1, by decide⟩

/-- Claim C10: a wordlist line that is entirely whitespace after stripping and
normalization is skipped as blank, and consequently no emitted wordlist
candidate — in particular no secret made up solely of spaces — consists
only of whitespace. -/
theorem blank_lines_never_emitted :
    (∀ (normalize : Str → Str) (line : Str),
      (normalize (rstrip_crlf line)).all is_py_space = true →
        process_line normalize line = none)
    ∧ (∀ (normalize : Str → Str) (lines : List Str) (p : Str),
        p ∈ iter_from_dictionary normalize lines → p.all is_py_space = false) := by
  constructor
  · intro normalize line h
    unfold process_line
    simp [(py_strip_eq_nil_iff _).mpr h]
  · intro normalize lines p hp
    rcases List.mem_filterMap.mp hp with ⟨line, _, hline⟩
    rw [process_line_eq] at hline
    by_cases hk : keep_password (normalize (rstrip_crlf line))
    · simp [hk] at hline
      subst hline
      by_contra hall
      rw [Bool.not_eq_false] at hall
      have hnil := (py_strip_eq_nil_iff (normalize (rstrip_crlf line))).mpr hall
      unfold keep_password at hk
      rw [hnil] at hk
      simp at hk
    · simp [hk] at hline

/-- Claim C10 witness: a line of two spaces is skipped; a kept candidate with
internal spaces is not all-whitespace. -/
theorem blank_lines_never_emitted_witness :
    ([Char.ofNat 32, Char.ofNat 32] : Str).all is_py_space = true
    ∧ process_line id [Char.ofNat 32, Char.ofNat 32] = none
    ∧ ([Char.ofNat 32, Char.ofNat 97, Char.ofNat 32] : Str).all is_py_space = false :=
  ⟨by decide,
   blank_lines_never_emitted.1 id [Char.ofNat 32, Char.ofNat 32] (by decide),
   blank_lines_never_emitted.2 id
     [[Char.ofNat 32, Char.ofNat 97, Char.ofNat 32, Char.ofNat 13, Char.ofNat 10]]
     [Char.ofNat 32, Char.ofNat 97, Char.ofNat 32] (by decide)⟩

theorem is_pdf_encrypted_ok (w : World) : ∃ b, is_pdf_encrypted w = Except.ok b := by
  cases h : w.openNoPw with
  | ok => exact ⟨false, by simp [is_pdf_encrypted, pikepdf_open_no_password, h]⟩
  | passwordError => exact ⟨true, by simp [is_pdf_encrypted, pikepdf_open_no_password, h]⟩
  | otherError m => exact ⟨true, by simp [is_pdf_encrypted, pikepdf_open_no_password, h]⟩

theorem trial_loop_msg_not_classification (w : World) (pws : List (Str × Source))
    (e : PyExc) :
    (trial_loop w pws).1.errorMessage ≠ some (ErrMsg.errorCheckingEncrypted e) := by
  induction pws with
  | nil => simp [trial_loop]
  | cons ps rest ih =>
    obtain ⟨p, src⟩ := ps
    cases h : w.openWith p with
    | passwordError => simpa [trial_loop, h] using ih
    | otherError m => simp [trial_loop, h]
    | ok =>
      cases hs : w.saveErr with
      | some m => simp [trial_loop, h, hs]
      | none => simp [trial_loop, h, hs]

theorem backup_phase_fails (w : World) (h : backup_step_fails w = true) :
    ∃ e w1, backup_phase w = (some e, w1) := by
  cases hd : w.dirExists with
  | true =>
    cases hi : w.dirIsDir with
    | false =>
      exact ⟨PyExc.fileExistsError, w,
        by simp [backup_phase, validate_backup_path, ensure_backup, hd, hi]⟩
    | true =>
      cases hw : w.dirWritable with
      | false =>
        exact ⟨PyExc.touchOSError, w,
          by simp [backup_phase, validate_backup_path, ensure_backup, hd, hi, hw]⟩
      | true => exact absurd h (by simp [backup_step_fails, hd, hi, hw])
  | false =>
    cases hp : w.parentWritable with
    | false =>
      exact ⟨PyExc.permParentNotWritable, w,
        by simp [backup_phase, validate_backup_path, ensure_backup, hd, hp]⟩
    | true => exact absurd h (by simp [backup_step_fails, hd, hp])

/-- Claim C1: inside `atomic_write`, if the producer or the subsequent
flush/fsync raises, the temporary file is deleted and the bytes at the target
path are exactly what they were before the call; conversely the target's
bytes change only when every step, including the final `os.replace`,
succeeds, in which case the target holds exactly the produced bytes — so no
partial content and no leftover temporary artifact is observable on the
producer/flush failure path. -/
theorem atomic_write_atomic (s : AWState) (tempCreateErr producerErr : Option PyExc)
    (produced : Bytes) (fsyncErr replaceErr : Option PyExc)
    (hstart : s.tempExists = false) :
    ((producerErr ≠ none ∨ fsyncErr ≠ none) → tempCreateErr = none →
      ∃ e, atomic_write s tempCreateErr producerErr produced fsyncErr replaceErr =
        (AWOutcome.raised e, ⟨s.targetBytes, false⟩))
    ∧ ((atomic_write s tempCreateErr producerErr produced fsyncErr replaceErr).2.targetBytes
          ≠ s.targetBytes →
        tempCreateErr = none ∧ producerErr = none ∧ fsyncErr = none ∧ replaceErr = none
        ∧ atomic_write s tempCreateErr producerErr produced fsyncErr replaceErr =
            (AWOutcome.ok, ⟨some produced, false⟩)) := by
  obtain ⟨tb, te⟩ := s
  simp only [AWState.tempExists] at hstart
  subst hstart
  cases tempCreateErr with
  | some e0 =>
    exact ⟨fun _ htc => absurd htc (by simp), fun hne => absurd rfl hne⟩
  | none =>
    cases producerErr with
    | some e0 => exact ⟨fun _ _ => ⟨e0, rfl⟩, fun hne => absurd rfl hne⟩
    | none =>
      cases fsyncErr with
      | some e0 => exact ⟨fun _ _ => ⟨e0, rfl⟩, fun hne => absurd rfl hne⟩
      | none =>
        cases replaceErr with
        | some e0 =>
          refine ⟨fun h _ => ?_, fun hne => absurd rfl hne⟩
          rcases h with h | h <;> exact absurd rfl h
        | none =>
          refine ⟨fun h _ => ?_, fun _ => ⟨rfl, rfl, rfl, rfl, rfl⟩⟩
          rcases h with h | h <;> exact absurd rfl h

/-- Claim C1 witness: a producer failure over a target holding `[1]` leaves the
target bytes `[1]` and no temporary file. -/
theorem atomic_write_atomic_witness :
    (⟨some [1], false⟩ : AWState).tempExists = false
    ∧ ∃ e, atomic_write ⟨some [1], false⟩ none (some (PyExc.saveError [])) [2] none none
        = (AWOutcome.raised e, ⟨some [1], false⟩) :=
  ⟨by decide,
   (atomic_write_atomic ⟨some [1], false⟩ none (some (PyExc.saveError [])) [2] none none
      (by decide)).1 (Or.inl (by simp)) rfl⟩

/-- Claim C2: for a file classified as protected whose backup validation or
backup copy raises, `unlock_file` returns `FAILED` with the
"Failed to create backup" cause, the trial loop attempts no credential
(empty trace of `pikepdf.open` trials), and the result does not depend on
the supplied credential sequence at all. -/
theorem unlock_file_backup_failure (w : World) (pws pws2 : List (Str × Source))
    (henc : is_pdf_encrypted w = Except.ok true) (hfail : backup_step_fails w = true) :
    (unlock_file w pws).1.status = UnlockStatus.failed
    ∧ (∃ e, (unlock_file w pws).1.errorMessage = some (ErrMsg.failedToCreateBackup e))
    ∧ (unlock_file w pws).2.2 = []
    ∧ (unlock_file w pws).1 = (unlock_file w pws2).1 := by
  obtain ⟨e, w1, hbp⟩ := backup_phase_fails w hfail
  refine ⟨?_, ⟨e, ?_⟩, ?_, ?_⟩ <;>
    simp [unlock_file, henc, backup_and_trials, hbp]

/-- Claim C2 witness: a protected file with no backup directory and an
unwritable parent fails with the backup cause and an empty trial trace. -/
theorem unlock_file_backup_failure_witness :
    is_pdf_encrypted wBackupFail = Except.ok true
    ∧ backup_step_fails wBackupFail = true
    ∧ (unlock_file wBackupFail [(secret0, Source.single)]).1.status = UnlockStatus.failed
    ∧ (unlock_file wBackupFail [(secret0, Source.single)]).2.2 = [] :=
  ⟨rfl, by decide,
   (unlock_file_backup_failure wBackupFail [(secret0, Source.single)] [] rfl (by decide)).1,
   (unlock_file_backup_failure wBackupFail [(secret0, Source.single)] [] rfl (by decide)).2.2.1⟩

/-- Claim C3: a file that opens successfully with no credential yields
`UNCHANGED` with `method_used` "already_unlocked" from both `unlock_file`
and `try_unlock_dry_run`, for every credential sequence; no credential is
tried (empty trace) and the world — in particular the backup directory and
backup file state — is left exactly as it was. -/
theorem unlock_file_already_unlocked (w : World) (pws : List (Str × Source))
    (h : w.openNoPw = OpenResult.ok) :
    unlock_file w pws =
        (⟨UnlockStatus.unchanged, none, some MethodLabel.alreadyUnlocked⟩, w, [])
    ∧ try_unlock_dry_run w pws =
        (⟨UnlockStatus.unchanged, none, some MethodLabel.alreadyUnlocked⟩, w, []) := by
  have he : is_pdf_encrypted w = Except.ok false := by
    simp [is_pdf_encrypted, pikepdf_open_no_password, h]
  exact ⟨by simp [unlock_file, he], by simp [try_unlock_dry_run, he]⟩

/-- Claim C3 witness: an already-open file with a supplied credential is
reported unchanged and its world untouched. -/
theorem unlock_file_already_unlocked_witness :
    wAlready.openNoPw = OpenResult.ok
    ∧ unlock_file wAlready [(secret0, Source.single)] =
        (⟨UnlockStatus.unchanged, none, some MethodLabel.alreadyUnlocked⟩, wAlready, []) :=
  ⟨rfl, (unlock_file_already_unlocked wAlready [(secret0, Source.single)] rfl).1⟩

/-- Claim C6: `is_pdf_encrypted` returns a boolean for every input and never
raises; when the password-less open fails with any non-password error the
file is classified as protected and `unlock_file` proceeds to the backup and
trial phase; consequently the classification-error `FAILED` branch of
`unlock_file` is unreachable: no result ever carries the
"Error checking if PDF is encrypted" message. -/
theorem classification_never_fails :
    (∀ w : World, ∃ b, is_pdf_encrypted w = Except.ok b)
    ∧ (∀ (w : World) (m : Str) (pws : List (Str × Source)),
        w.openNoPw = OpenResult.otherError m →
          is_pdf_encrypted w = Except.ok true ∧ unlock_file w pws = backup_and_trials w pws)
    ∧ (∀ (w : World) (pws : List (Str × Source)) (e : PyExc),
        (unlock_file w pws).1.errorMessage ≠ some (ErrMsg.errorCheckingEncrypted e)) := by
  refine ⟨is_pdf_encrypted_ok, ?_, ?_⟩
  · intro w m pws h
    have he : is_pdf_encrypted w = Except.ok true := by
      simp [is_pdf_encrypted, pikepdf_open_no_password, h]
    exact ⟨he, by simp [unlock_file, he]⟩
  · intro w pws e
    obtain ⟨b, hb⟩ := is_pdf_encrypted_ok w
    cases b with
    | false => simp [unlock_file, hb]
    | true =>
      simp only [unlock_file, hb]
      cases hbp : backup_phase w with
      | mk oe w1 =>
        cases oe with
        | some e1 => simp [backup_and_trials, hbp]
        | none =>
          simpa [backup_and_trials, hbp] using
            trial_loop_msg_not_classification w1 pws e

/-- Claim C6 witness: a file whose password-less open raises a non-password
error is classified as protected and routed into backup and trials. -/
theorem classification_never_fails_witness :
    wOtherError.openNoPw = OpenResult.otherError []
    ∧ is_pdf_encrypted wOtherError = Except.ok true
    ∧ unlock_file wOtherError [] = backup_and_trials wOtherError [] :=
  ⟨rfl, (classification_never_fails.2.1 wOtherError [] [] rfl).1,
   (classification_never_fails.2.1 wOtherError [] [] rfl).2⟩

/-- Claim C8 counterexample: the CLI exits with status 0 when the traversal
yields zero candidate files — the very same status as a run where every file
reached `Unchanged`/`Unlocked` — so the "nothing to do" status is not
distinct from the all-success status (a failing run exits 1). -/
theorem cli_exit_code_nothing_to_do_cex :
    cli_exit_code [] = 0
    ∧ cli_exit_code [UnlockStatus.unchanged] = 0
    ∧ cli_exit_code [UnlockStatus.unchanged, UnlockStatus.failed] = 1 := by
  decide

/-- Claim C8 (amended): the exit status is 0 iff every processed file reached
`Unchanged` or `Unlocked`, and 1 iff at least one file reached `Failed`;
when the traversal yields zero candidate files the process also exits 0,
the "nothing to do" case being signalled only by a console message, not by a
distinct exit status. -/
theorem cli_exit_code_spec :
    (∀ rs : List UnlockStatus, rs ≠ [] →
      (((∀ r ∈ rs, r ≠ UnlockStatus.failed) ↔ cli_exit_code rs = 0)
      ∧ ((∃ r ∈ rs, r = UnlockStatus.failed) ↔ cli_exit_code rs = 1)))
    ∧ cli_exit_code [] = 0 := by
  refine ⟨?_, rfl⟩
  intro rs hne
  have hie : rs.isEmpty = false := by
    cases rs with
    | nil => exact absurd rfl hne
    | cons a l => rfl
  by_cases hc : rs.countP (fun r => r == UnlockStatus.failed) = 0
  · have hall := List.countP_eq_zero.mp hc
    constructor
    · simp only [cli_exit_code, hie]
      refine ⟨fun _ => by simp [hc], fun _ r hr => ?_⟩
      have := hall r hr
      simpa using this
    · simp only [cli_exit_code, hie]
      refine ⟨fun he => ?_, fun h1 => ?_⟩
      · rcases he with ⟨r, hr, hfr⟩
        subst hfr
        exact absurd (by simp : ((UnlockStatus.failed == UnlockStatus.failed) = true))
          (by simpa using hall _ hr)
      · rw [if_pos hc] at h1
        exact absurd h1 (by decide)
  · have hpos : 0 < rs.countP (fun r => r == UnlockStatus.failed) :=
      Nat.pos_of_ne_zero hc
    obtain ⟨r, hr, hfr⟩ := List.countP_pos_iff.mp hpos
    have hrf : r = UnlockStatus.failed := by
      cases r <;> simp_all
    constructor
    · simp only [cli_exit_code, hie]
      refine ⟨fun hnone => ?_, fun h0 => ?_⟩
      · exact absurd hrf (hnone r hr)
      · rw [if_neg hc] at h0
        exact absurd h0 (by decide)
    · simp only [cli_exit_code, hie]
      exact ⟨fun _ => by simp [hc], fun _ => ⟨r, hr, hrf⟩⟩

/-- Claim C8 witness: the amended exit-code characterization applied to a
concrete mixed run. -/
theorem cli_exit_code_spec_witness :
    ([UnlockStatus.unchanged, UnlockStatus.failed] : List UnlockStatus) ≠ []
    ∧ cli_exit_code [UnlockStatus.unchanged, UnlockStatus.failed] = 1 :=
  ⟨by decide,
   ((cli_exit_code_spec.1 [UnlockStatus.unchanged, UnlockStatus.failed]
        (by decide)).2).mp ⟨UnlockStatus.failed, by decide, rfl⟩⟩

/-- Claim C9: `copy_backup` unconditionally copies the source's current bytes
over `backup_dir/src.name`: whenever it succeeds — including when a backup
file already exists there with different content from a previous run — the
backup afterwards holds exactly the source's current bytes, so the old
backup record is replaced, not preserved. -/
theorem copy_backup_overwrites (w : World) (old : Bytes)
    (hd : w.dirExists = true) (hi : w.dirIsDir = true) (hw : w.dirWritable = true)
    (_hb : w.backupBytes = some old) :
    (copy_backup w).1 = none ∧ (copy_backup w).2.backupBytes = some w.fileBytes := by
  simp [copy_backup, ensure_backup, hd, hi, hw]

/-- Claim C9 witness: a stale backup `[9]` of a source now holding `[7]` is
overwritten with `[7]`. -/
theorem copy_backup_overwrites_witness :
    wStaleBackup.backupBytes = some [9]
    ∧ wStaleBackup.fileBytes = [7]
    ∧ (copy_backup wStaleBackup).2.backupBytes = some wStaleBackup.fileBytes :=
  ⟨rfl, rfl, (copy_backup_overwrites wStaleBackup [9] rfl rfl rfl rfl).2⟩

theorem mem_dedup_keep (cands : List Str) (seen : List Str) (s : Str) :
    s ∈ dedup_keep seen cands ↔ s ∈ cands ∧ s ∉ seen := by
  induction cands generalizing seen with
  | nil => simp [dedup_keep]
  | cons p ps ih =>
    by_cases hp : p ∈ seen
    · rw [show dedup_keep seen (p :: ps) = dedup_keep seen ps from by simp [dedup_keep, hp]]
      rw [ih]
      constructor
      · rintro ⟨h1, h2⟩
        exact ⟨List.mem_cons_of_mem p h1, h2⟩
      · rintro ⟨h1, h2⟩
        rcases List.mem_cons.mp h1 with rfl | h1m
        · exact absurd hp h2
        · exact ⟨h1m, h2⟩
    · rw [show dedup_keep seen (p :: ps) = p :: dedup_keep (p :: seen) ps from by
        simp [dedup_keep, hp]]
      simp only [List.mem_cons, ih]
      constructor
      · rintro (rfl | ⟨h1, h2⟩)
        · exact ⟨Or.inl rfl, hp⟩
        · exact ⟨Or.inr h1, fun hs => h2 (Or.inr hs)⟩
      · rintro ⟨rfl | h1, h2⟩
        · exact Or.inl rfl
        · by_cases hsp : s = p
          · exact Or.inl hsp
          · exact Or.inr ⟨h1, fun hs => hs.elim hsp h2⟩

theorem nodup_dedup_keep (cands : List Str) (seen : List Str) :
    (dedup_keep seen cands).Nodup := by
  induction cands generalizing seen with
  | nil => simp [dedup_keep]
  | cons p ps ih =>
    by_cases hp : p ∈ seen
    · rw [show dedup_keep seen (p :: ps) = dedup_keep seen ps from by simp [dedup_keep, hp]]
      exact ih seen
    · rw [show dedup_keep seen (p :: ps) = p :: dedup_keep (p :: seen) ps from by
        simp [dedup_keep, hp]]
      refine List.nodup_cons.mpr ⟨?_, ih (p :: seen)⟩
      intro hmem
      exact ((mem_dedup_keep ps (p :: seen) p).mp hmem).2 (List.mem_cons_self p seen)

theorem sublist_dedup_keep (cands : List Str) (seen : List Str) :
    List.Sublist (dedup_keep seen cands) cands := by
  induction cands generalizing seen with
  | nil => simp [dedup_keep]
  | cons p ps ih =>
    by_cases hp : p ∈ seen
    · rw [show dedup_keep seen (p :: ps) = dedup_keep seen ps from by simp [dedup_keep, hp]]
      exact (ih seen).cons p
    · rw [show dedup_keep seen (p :: ps) = p :: dedup_keep (p :: seen) ps from by
        simp [dedup_keep, hp]]
      exact (ih (p :: seen)).cons₂ p

theorem mem_source_block (k : List Str) (srci : Source) (s : Str) (src : Source) :
    (s, src) ∈ k.map (fun p => (p, srci)) ↔ s ∈ k ∧ srci = src := by
  constructor
  · intro h
    rcases List.mem_map.mp h with ⟨p, hp, heq⟩
    cases heq
    exact ⟨hp, rfl⟩
  · rintro ⟨h1, rfl⟩
    exact List.mem_map.mpr ⟨s, h1, rfl⟩

theorem filter_source_block (k : List Str) (srci d : Source) :
    ((k.map (fun p => (p, srci))).filter (fun x => x.2 == d)) =
      if srci = d then k.map (fun p => (p, srci)) else [] := by
  induction k with
  | nil => simp
  | cons p ps ih =>
    by_cases h : srci = d
    · subst h
      simp [List.filter_cons, ih]
    · simp [List.filter_cons, ih, h]

theorem pairwise_of_total {α : Type} {R : α → α → Prop} (h : ∀ a b, R a b) :
    ∀ l : List α, l.Pairwise R
  | [] => .nil
  | a :: l => .cons (fun b _ => h a b) (pairwise_of_total h l)

/-- Claim C4 (amended): `iter_passwords` emits candidates in the fixed source
order single, wordlist (in file order), environment, empty; no two emitted
candidates share a secret; and — with an environment value equal to the
empty string treated as absent, which is how the code's truthiness guard
behaves — every secret is emitted exactly under the earliest source that
contains it: `(s, src)` is emitted iff `src` is the head of the
priority-ordered list of sources containing `s`. -/
theorem iter_passwords_spec (normalize : Str → Str) (single : Option Str)
    (dict : Option (List Str)) (envPassword : Option Str) (try_empty : Bool) :
    ((iter_passwords normalize single dict envPassword try_empty).map Prod.fst).Nodup
    ∧ (iter_passwords normalize single dict envPassword try_empty).Pairwise
        (fun a b => src_rank a.2 ≤ src_rank b.2)
    ∧ List.Sublist
        (((iter_passwords normalize single dict envPassword try_empty).filter
            (fun x => x.2 == Source.dictionary)).map Prod.fst)
        (dict_cands normalize dict)
    ∧ ∀ (s : Str) (src : Source),
        ((s, src) ∈ iter_passwords normalize single dict envPassword try_empty ↔
          (origins_of normalize single dict envPassword try_empty s).head? = some src) := by
  have hiter : iter_passwords normalize single dict envPassword try_empty =
      (dedup_keep [] (single_cands single)).map (fun p => (p, Source.single))
      ++ (dedup_keep (dedup_keep [] (single_cands single))
            (dict_cands normalize dict)).map (fun p => (p, Source.dictionary))
      ++ (dedup_keep (dedup_keep [] (single_cands single)
              ++ dedup_keep (dedup_keep [] (single_cands single)) (dict_cands normalize dict))
            (env_cands envPassword)).map (fun p => (p, Source.environment))
      ++ (dedup_keep (dedup_keep [] (single_cands single)
              ++ dedup_keep (dedup_keep [] (single_cands single)) (dict_cands normalize dict)
              ++ dedup_keep (dedup_keep [] (single_cands single)
                    ++ dedup_keep (dedup_keep [] (single_cands single))
                        (dict_cands normalize dict)) (env_cands envPassword))
            (empty_cands try_empty)).map (fun p => (p, Source.empty)) := rfl
  have m1 : ∀ t : Str, t ∈ dedup_keep [] (single_cands single) ↔ t ∈ single_cands single := by
    intro t
    simp [mem_dedup_keep]
  have m2 : ∀ t : Str,
      t ∈ dedup_keep (dedup_keep [] (single_cands single)) (dict_cands normalize dict) ↔
        t ∈ dict_cands normalize dict ∧ t ∉ single_cands single := by
    intro t
    simp only [mem_dedup_keep, List.not_mem_nil, not_false_iff, and_true]
    try tauto
  have m3 : ∀ t : Str,
      t ∈ dedup_keep (dedup_keep [] (single_cands single)
            ++ dedup_keep (dedup_keep [] (single_cands single)) (dict_cands normalize dict))
          (env_cands envPassword) ↔
        t ∈ env_cands envPassword ∧ t ∉ single_cands single
          ∧ t ∉ dict_cands normalize dict := by
    intro t
    simp only [mem_dedup_keep, List.mem_append, List.not_mem_nil, not_false_iff, and_true]
    try tauto
  have m4 : ∀ t : Str,
      t ∈ dedup_keep (dedup_keep [] (single_cands single)
            ++ dedup_keep (dedup_keep [] (single_cands single)) (dict_cands normalize dict)
            ++ dedup_keep (dedup_keep [] (single_cands single)
                  ++ dedup_keep (dedup_keep [] (single_cands single))
                      (dict_cands normalize dict)) (env_cands envPassword))
          (empty_cands try_empty) ↔
        t ∈ empty_cands try_empty ∧ t ∉ single_cands single
          ∧ t ∉ dict_cands normalize dict ∧ t ∉ env_cands envPassword := by
    intro t
    simp only [mem_dedup_keep, List.mem_append, List.not_mem_nil, not_false_iff, and_true]
    try tauto
  have hid : ∀ (src : Source) (k : List Str),
      (k.map (fun p => (p, src))).map Prod.fst = k := by
    intro src k
    induction k with
    | nil => rfl
    | cons a l ih => simp [ih]
  refine ⟨?_, ?_, ?_, ?_⟩
  · rw [hiter]
    simp only [List.map_append]
    rw [hid, hid, hid, hid]
    rw [List.append_assoc, List.append_assoc]
    rw [List.nodup_append]
    refine ⟨nodup_dedup_keep _ _, ?_, ?_⟩
    · rw [List.nodup_append]
      refine ⟨nodup_dedup_keep _ _, ?_, ?_⟩
      · rw [List.nodup_append]
        refine ⟨nodup_dedup_keep _ _, nodup_dedup_keep _ _, ?_⟩
        · intro t ht3 ht4
          rw [m3] at ht3
          rw [m4] at ht4
          exact ht4.2.2.2 ht3.1
      · intro t ht2 htr
        rw [m2] at ht2
        rcases List.mem_append.mp htr with ht | ht
        · rw [m3] at ht
          exact ht.2.2 ht2.1
        · rw [m4] at ht
          exact ht.2.2.1 ht2.1
    · intro t ht1 htr
      rw [m1] at ht1
      rcases List.mem_append.mp htr with ht | htr2
      · rw [m2] at ht
        exact ht.2 ht1
      · rcases List.mem_append.mp htr2 with ht | ht
        · rw [m3] at ht
          exact ht.2.1 ht1
        · rw [m4] at ht
          exact ht.2.1 ht1
  · rw [hiter]
    rw [List.append_assoc, List.append_assoc]
    have hblock : ∀ (src : Source) (k : List Str),
        (k.map (fun p => (p, src))).Pairwise
          (fun a b : Str × Source => src_rank a.2 ≤ src_rank b.2) := by
      intro src k
      rw [List.pairwise_map]
      exact pairwise_of_total (fun a b => le_refl _) k
    have hsnd : ∀ (src : Source) (k : List Str) (x : Str × Source),
        x ∈ k.map (fun p => (p, src)) → x.2 = src := by
      intro src k x hx
      rcases List.mem_map.mp hx with ⟨p, _, rfl⟩
      rfl
    rw [List.pairwise_append]
    refine ⟨hblock _ _, ?_, ?_⟩
    · rw [List.pairwise_append]
      refine ⟨hblock _ _, ?_, ?_⟩
      · rw [List.pairwise_append]
        refine ⟨hblock _ _, hblock _ _, ?_⟩
        · intro a ha b hb
          rw [hsnd _ _ a ha, hsnd _ _ b hb]
          decide
      · intro a ha b hb
        rw [hsnd _ _ a ha]
        rcases List.mem_append.mp hb with hb | hb
        · rw [hsnd _ _ b hb]
          decide
        · rw [hsnd _ _ b hb]
          decide
    · intro a ha b hb
      rw [hsnd _ _ a ha]
      rcases List.mem_append.mp hb with hb | hb2
      · rw [hsnd _ _ b hb]
        decide
      · rcases List.mem_append.mp hb2 with hb | hb
        · rw [hsnd _ _ b hb]
          decide
        · rw [hsnd _ _ b hb]
          decide
  · rw [hiter]
    rw [List.filter_append, List.filter_append, List.filter_append]
    rw [filter_source_block, filter_source_block, filter_source_block, filter_source_block]
    rw [if_neg (by decide : ¬ (Source.single = Source.dictionary))]
    rw [if_pos rfl]
    rw [if_neg (by decide : ¬ (Source.environment = Source.dictionary))]
    rw [if_neg (by decide : ¬ (Source.empty = Source.dictionary))]
    simp only [List.append_nil, List.nil_append]
    rw [hid]
    exact sublist_dedup_keep _ _
  · intro s src
    rw [hiter]
    simp only [List.mem_append, mem_source_block, m1, m2, m3, m4]
    by_cases b1 : s ∈ single_cands single <;>
      by_cases b2 : s ∈ dict_cands normalize dict <;>
        by_cases b3 : s ∈ env_cands envPassword <;>
          by_cases b4 : s ∈ empty_cands try_empty <;>
            simp [origins_of, candidates_of, List.filter, b1, b2, b3, b4]

/-- Claim C4 counterexample: with no single credential, no wordlist, the
environment variable set to the empty string and `--try-empty` on, the empty
secret appears under the sources [environment, empty] whose earliest member
is environment, yet the emitted sequence carries it with origin "empty":
the guard `if env_password` silently drops an environment value equal to
`""`, so the "earliest source's origin label" part of the claim fails. -/
theorem iter_passwords_env_empty_cex :
    spec_origins_of id none none (some []) true [] = [Source.environment, Source.empty]
    ∧ iter_passwords id none none (some []) true = [([], Source.empty)] := by
  constructor <;> rfl

/-- Claim C4 witness: the amended theorem applied to a single credential that
also arrives via the environment, plus the empty credential; the duplicate
environment copy is suppressed and the earliest origin kept. -/
theorem iter_passwords_spec_witness :
    iter_passwords id (some secret0) none (some secret0) true
        = [(secret0, Source.single), ([], Source.empty)]
    ∧ ((iter_passwords id (some secret0) none (some secret0) true).map Prod.fst).Nodup
    ∧ ((secret0, Source.single) ∈ iter_passwords id (some secret0) none (some secret0) true ↔
        (origins_of id (some secret0) none (some secret0) true secret0).head?
          = some Source.single) :=
  ⟨by decide, (iter_passwords_spec id (some secret0) none (some secret0) true).1,
   (iter_passwords_spec id (some secret0) none (some secret0) true).2.2.2
     secret0 Source.single⟩

theorem dry_trial_loop_world (w : World) (pws : List (Str × Source)) :
    (dry_trial_loop w pws).2.1 = w := by
  induction pws with
  | nil => rfl
  | cons ps rest ih =>
    obtain ⟨p, src⟩ := ps
    cases h : w.openWith p with
    | passwordError => simpa [dry_trial_loop, h] using ih
    | otherError m => simp [dry_trial_loop, h]
    | ok => simp [dry_trial_loop, h]

theorem dry_trial_loop_agrees (w w2 : World) (pws : List (Str × Source))
    (hopen : w2.openWith = w.openWith) (hsave : w2.saveErr = none) :
    (dry_trial_loop w pws).1 = (trial_loop w2 pws).1 := by
  induction pws with
  | nil => rfl
  | cons ps rest ih =>
    obtain ⟨p, src⟩ := ps
    cases h : w.openWith p with
    | passwordError => simp [dry_trial_loop, trial_loop, hopen, h, ih]
    | otherError m => simp [dry_trial_loop, trial_loop, hopen, h]
    | ok => simp [dry_trial_loop, trial_loop, hopen, h, hsave]

/-- Claim C5 counterexample: on a protected file whose backup-directory path
is occupied by a writable regular file (`os.access(..., W_OK)` passes but
`mkdir(exist_ok=True)` raises `FileExistsError`), with a working credential
supplied, `try_unlock_dry_run` reports `UNLOCKED` while `unlock_file`
reports `FAILED` — the two modes do not return the same outcome status for
every file and credential sequence. -/
theorem try_unlock_dry_run_divergence_cex :
    (try_unlock_dry_run wDirIsFile [(secret0, Source.single)]).1.status
        = UnlockStatus.unlocked
    ∧ (unlock_file wDirIsFile [(secret0, Source.single)]).1.status
        = UnlockStatus.failed := by
  constructor <;> rfl

/-- Claim C5 (amended): `try_unlock_dry_run` never mutates the world — its
backup feasibility check creates no files or directories and it never writes
the target — and, provided the backup-directory path is not occupied by a
non-directory and the save step raises no error, it returns the same outcome
status, the same origin label, and the same failure-cause category as
`unlock_file` on every file and credential sequence. -/
theorem try_unlock_dry_run_refines (w : World) (pws : List (Str × Source)) :
    ((try_unlock_dry_run w pws).2.1 = w)
    ∧ ((w.dirExists = true → w.dirIsDir = true) → w.saveErr = none →
      ((try_unlock_dry_run w pws).1.status = (unlock_file w pws).1.status
      ∧ (try_unlock_dry_run w pws).1.methodUsed = (unlock_file w pws).1.methodUsed
      ∧ (try_unlock_dry_run w pws).1.errorMessage.map cause_of
          = (unlock_file w pws).1.errorMessage.map cause_of)) := by
  obtain ⟨b, hb⟩ := is_pdf_encrypted_ok w
  constructor
  · cases b with
    | false => simp [try_unlock_dry_run, hb]
    | true =>
      cases hv : validate_backup_path_no_side_effects w with
      | some e => simp [try_unlock_dry_run, hb, hv]
      | none => simp [try_unlock_dry_run, hb, hv, dry_trial_loop_world]
  · intro hdir hsave
    cases b with
    | false => simp [try_unlock_dry_run, unlock_file, hb]
    | true =>
      cases hd : w.dirExists with
      | true =>
        have hi : w.dirIsDir = true := hdir hd
        cases hw : w.dirWritable with
        | true =>
          have hv : validate_backup_path_no_side_effects w = none := by
            simp [validate_backup_path_no_side_effects, hd, hw]
          have hbp : backup_phase w = (none, { w with backupBytes := some w.fileBytes }) := by
            simp [backup_phase, validate_backup_path, copy_backup, ensure_backup, hd, hi, hw]
          have hagree := dry_trial_loop_agrees w
            { w with backupBytes := some w.fileBytes } pws rfl hsave
          simp [try_unlock_dry_run, unlock_file, backup_and_trials, hb, hv, hbp, hagree]
        | false =>
          have hv : validate_backup_path_no_side_effects w = some PyExc.permDirNotWritable := by
            simp [validate_backup_path_no_side_effects, hd, hw]
          have hbp : backup_phase w = (some PyExc.touchOSError, w) := by
            simp [backup_phase, validate_backup_path, ensure_backup, hd, hi, hw]
          simp [try_unlock_dry_run, unlock_file, backup_and_trials, hb, hv, hbp, cause_of]
      | false =>
        cases hp : w.parentWritable with
        | true =>
          have hv : validate_backup_path_no_side_effects w = none := by
            simp [validate_backup_path_no_side_effects, hd, hp]
          have hbp : backup_phase w = (none, { w with dirExists := true, dirIsDir := true, dirWritable := true, backupBytes := some w.fileBytes }) := by
            simp [backup_phase, validate_backup_path, copy_backup, ensure_backup, hd, hp]
          have hagree := dry_trial_loop_agrees w { w with dirExists := true, dirIsDir := true, dirWritable := true, backupBytes := some w.fileBytes } pws rfl hsave
          simp [try_unlock_dry_run, unlock_file, backup_and_trials, hb, hv, hbp, hagree]
        | false =>
          have hv : validate_backup_path_no_side_effects w
              = some PyExc.permParentNotWritable := by
            simp [validate_backup_path_no_side_effects, hd, hp]
          have hbp : backup_phase w = (some PyExc.permParentNotWritable, w) := by
            simp [backup_phase, validate_backup_path, ensure_backup, hd, hp]
          simp [try_unlock_dry_run, unlock_file, backup_and_trials, hb, hv, hbp, cause_of]

/-- Claim C5 witness: on a protected, unlockable file with a creatable backup
directory, the dry run leaves the world untouched and matches the mutating
run's status. -/
theorem try_unlock_dry_run_refines_witness :
    (try_unlock_dry_run wUnlockable [(secret0, Source.dictionary)]).2.1 = wUnlockable
    ∧ (try_unlock_dry_run wUnlockable [(secret0, Source.dictionary)]).1.status
        = (unlock_file wUnlockable [(secret0, Source.dictionary)]).1.status :=
  ⟨(try_unlock_dry_run_refines wUnlockable [(secret0, Source.dictionary)]).1,
   ((try_unlock_dry_run_refines wUnlockable [(secret0, Source.dictionary)]).2
      (by decide) rfl).1⟩

end PdfMassUnlock
